import Mathlib

/-!
Shallow embedding of the balance-diff trade-decision engine of a wallet
mirroring trading bot. Balance maps (JS `Map<string, number>`) are modelled
as association lists over token mints with rational balances; the tracker
pass `compareBalances`, the snapshot fetch `getWalletTokenBalances` and the
metrics module are translated directly from the source.
-/

namespace SolanaBot

abbrev Token := String

/-- A wallet balance map: JS `Map<string, number>` as an association list. -/
abbrev BalMap := List (Token × ℚ)

/-- `m.get(t)` before the `|| 0` default: the raw optional lookup. -/
def lookupBal (m : BalMap) (t : Token) : Option ℚ :=
  match m with
  | [] => none
  | (k, v) :: rest => if k = t then some v else lookupBal rest t

/-- `m.get(t) || 0` as used throughout `compareBalances`. -/
def getBal (m : BalMap) (t : Token) : ℚ :=
  (lookupBal m t).getD 0

/-- `m.has(t)`. -/
def hasBal (m : BalMap) (t : Token) : Bool :=
  (lookupBal m t).isSome

/-- `m.set(t, v)`: replace the entry if the key is present, else append. -/
def setBal (m : BalMap) (t : Token) (v : ℚ) : BalMap :=
  match m with
  | [] => [(t, v)]
  | (k, w) :: rest => if k = t then (k, v) :: rest else (k, w) :: setBal rest t v

/-- `m.delete(t)`. -/
def delBal (m : BalMap) (t : Token) : BalMap :=
  match m with
  | [] => []
  | (k, w) :: rest => if k = t then delBal rest t else (k, w) :: delBal rest t

/-- The keys iterated by `Array.from(map.keys())`. -/
def keysOf (m : BalMap) : List Token :=
  m.map Prod.fst

inductive Direction
  | BUY
  | SELL
deriving DecidableEq, Repr

/-- A swap command handed to `executeSwapBuy` / `executeSwapSell`. -/
structure SwapCommand where
  direction : Direction
  inputMint : Token
  outputMint : Token
  amountOrPercent : ℚ
deriving DecidableEq, Repr

/-- The `SwapResult` returned by the trader module. -/
structure SwapResult where
  success : Bool
  outAmount : ℚ
deriving DecidableEq, Repr

/-- The metrics state threaded through `updatePerformanceMetrics`. -/
structure Metrics where
  latencies : List ℚ
  successfulTrades : ℕ
  totalTrades : ℕ
  apiCallCount : ℕ
deriving DecidableEq, Repr

/-- `resetMetrics()` from the stats module. -/
def resetMetrics : Metrics :=
  { latencies := [], successfulTrades := 0, totalTrades := 0, apiCallCount := 0 }

/-- `updatePerformanceMetrics(tradeCount, latency, success, currentMetrics)`:
appends the latency, bumps `totalTrades`, bumps `successfulTrades` only on
success; `tradeCount` is accepted but unused, as in the source. -/
def updatePerformanceMetrics (tradeCount : ℕ) (latency : ℚ) (success : Bool)
    (currentMetrics : Metrics) : Metrics :=
  { latencies := currentMetrics.latencies ++ [latency]
    successfulTrades := currentMetrics.successfulTrades + (if success then 1 else 0)
    totalTrades := currentMetrics.totalTrades + 1
    apiCallCount := currentMetrics.apiCallCount }

/-- The SOL mint constant. -/
def solMint : Token := "So11111111111111111111111111111111111111112"

/-- The dust threshold `0.001` from the full-sell guard. -/
def DUST_THRESHOLD : ℚ := 1 / 1000

/-- The mutable module state read and written by `compareBalances`. -/
structure TrackerState where
  botBalances : BalMap
  previousBalances : BalMap
  metrics : Metrics
  tradeCount : ℕ
deriving DecidableEq, Repr

inductive TransitionKind
  | NEW_POSITION
  | INCREASE
  | PARTIAL_DECREASE
  | FULL_EXIT
deriving DecidableEq, Repr

/-- `(oldBalance - newBalance) / oldBalance * 100`, the decrease percent. -/
def decreasePercent (oldBalance newBalance : ℚ) : ℚ :=
  (oldBalance - newBalance) / oldBalance * 100

/-- The branch taken by the `tradePromises` body of `compareBalances` for one
token of the new snapshot: the `else if` chain over
`newBalance > oldBalance && !botBalances.has(token) && !previousBalances.has(token)`,
`newBalance > oldBalance`, and `newBalance < oldBalance && newBalance > 0`. -/
def tradeBranch (oldBalances newBalances botBalances previousBalances : BalMap)
    (t : Token) : Option TransitionKind :=
  if hasBal newBalances t then
    if getBal newBalances t > getBal oldBalances t ∧
        hasBal botBalances t = false ∧ hasBal previousBalances t = false then
      some TransitionKind.NEW_POSITION
    else if getBal newBalances t > getBal oldBalances t then
      some TransitionKind.INCREASE
    else if getBal newBalances t < getBal oldBalances t ∧ getBal newBalances t > 0 then
      some TransitionKind.PARTIAL_DECREASE
    else
      none
  else
    none

/-- The guard of the `sellPromises` body of `compareBalances` for one token of
the old snapshot:
`(!newTokens.has(token) || newBalance <= 0.001) && botBalance > 0`,
together with membership in the old snapshot that the loop iterates over. -/
def fullSellFires (oldBalances newBalances botBalances : BalMap) (t : Token) : Bool :=
  hasBal oldBalances t &&
    (!hasBal newBalances t || decide (getBal newBalances t ≤ DUST_THRESHOLD)) &&
    decide (getBal botBalances t > 0)

/-- The swap executor together with the wall-clock latency of each call. -/
abbrev Executor := SwapCommand → SwapResult × ℚ

/-- The `tradePromises` body of `compareBalances` for one token of the new
snapshot: classify, optionally dispatch a swap, and update the module state.
Returns the new state and the swap commands dispatched for this token. -/
def processNewToken (exec : Executor) (oldBalances newBalances : BalMap)
    (tradeAmount : ℚ) (st : TrackerState) (t : Token) :
    TrackerState × List SwapCommand :=
  if hasBal newBalances t then
    let newBalance := getBal newBalances t
    let oldBalance := getBal oldBalances t
    if newBalance > oldBalance ∧
        hasBal st.botBalances t = false ∧ hasBal st.previousBalances t = false then
      let cmd : SwapCommand :=
        { direction := Direction.BUY, inputMint := solMint, outputMint := t
          amountOrPercent := tradeAmount }
      let tc := st.tradeCount + 1
      let result := (exec cmd).1
      let latency := (exec cmd).2
      if result.success = true ∧ result.outAmount ≠ 0 then
        ({ st with
            tradeCount := tc
            botBalances := setBal st.botBalances t result.outAmount
            metrics := updatePerformanceMetrics tc latency result.success st.metrics },
          [cmd])
      else
        ({ st with tradeCount := tc }, [cmd])
    else if newBalance > oldBalance then
      let accumulatedBalance :=
        getBal st.previousBalances t + (newBalance - oldBalance)
      ({ st with
          previousBalances := setBal st.previousBalances t accumulatedBalance },
        [])
    else if newBalance < oldBalance ∧ newBalance > 0 then
      let botBalance := getBal st.botBalances t
      if botBalance > 0 then
        let cmd : SwapCommand :=
          { direction := Direction.SELL, inputMint := t, outputMint := solMint
            amountOrPercent := decreasePercent oldBalance newBalance }
        let tc := st.tradeCount + 1
        let result := (exec cmd).1
        let latency := (exec cmd).2
        if result.success = true then
          ({ st with
              tradeCount := tc
              botBalances := setBal st.botBalances t
                (botBalance - botBalance * (decreasePercent oldBalance newBalance / 100))
              metrics := updatePerformanceMetrics tc latency result.success st.metrics },
            [cmd])
        else
          ({ st with
              tradeCount := tc
              metrics := updatePerformanceMetrics tc latency false st.metrics },
            [cmd])
      else
        (st, [])
    else
      (st, [])
  else
    (st, [])

/-- The `sellPromises` body of `compareBalances` for one token of the old
snapshot: the full-sell path. On success the bot position is set to `0` and
the token is deleted from `previousBalances`; on failure only the metrics are
updated. -/
def processOldToken (exec : Executor) (oldBalances newBalances : BalMap)
    (st : TrackerState) (t : Token) : TrackerState × List SwapCommand :=
  let newBalance := getBal newBalances t
  let botBalance := getBal st.botBalances t
  if (hasBal newBalances t = false ∨ newBalance ≤ DUST_THRESHOLD) ∧ botBalance > 0 then
    let cmd : SwapCommand :=
      { direction := Direction.SELL, inputMint := t, outputMint := solMint
        amountOrPercent := 100 }
    let tc := st.tradeCount + 1
    let result := (exec cmd).1
    let latency := (exec cmd).2
    if result.success = true then
      ({ st with
          tradeCount := tc
          botBalances := setBal st.botBalances t 0
          previousBalances := delBal st.previousBalances t },
        [cmd])
    else
      ({ st with
          tradeCount := tc
          metrics := updatePerformanceMetrics tc latency false st.metrics },
        [cmd])
  else
    (st, [])

/-- The `tradePromises` loop over the tokens of the new snapshot. -/
def runTradeLoop (exec : Executor) (oldBalances newBalances : BalMap)
    (tradeAmount : ℚ) : List Token → TrackerState → TrackerState × List SwapCommand
  | [], st => (st, [])
  | t :: ts, st =>
      let r := processNewToken exec oldBalances newBalances tradeAmount st t
      let rest := runTradeLoop exec oldBalances newBalances tradeAmount ts r.1
      (rest.1, r.2 ++ rest.2)

/-- The `sellPromises` loop over the tokens of the old snapshot. -/
def runSellLoop (exec : Executor) (oldBalances newBalances : BalMap) :
    List Token → TrackerState → TrackerState × List SwapCommand
  | [], st => (st, [])
  | t :: ts, st =>
      let r := processOldToken exec oldBalances newBalances st t
      let rest := runSellLoop exec oldBalances newBalances ts r.1
      (rest.1, r.2 ++ rest.2)

/-- One whole `compareBalances` pass: both token loops followed by the final
`previousBalances = new Map(newBalances)` reassignment. -/
def compareBalances (exec : Executor) (tradeAmount : ℚ)
    (oldBalances newBalances : BalMap) (st : TrackerState) :
    TrackerState × List SwapCommand :=
  let r1 := runTradeLoop exec oldBalances newBalances tradeAmount (keysOf newBalances) st
  let r2 := runSellLoop exec oldBalances newBalances (keysOf oldBalances) r1.1
  ({ r2.1 with previousBalances := newBalances }, r1.2 ++ r2.2)

/-- The classification output of one pass, read off the branch guards: one
entry per new-snapshot token whose trade branch fires, plus one `FULL_EXIT`
entry per old-snapshot token whose full-sell guard fires. -/
def passClassification (oldBalances newBalances botBalances previousBalances : BalMap) :
    List (Token × TransitionKind) :=
  (keysOf newBalances).filterMap
      (fun t =>
        (tradeBranch oldBalances newBalances botBalances previousBalances t).map
          (fun k => (t, k))) ++
    (keysOf oldBalances).filterMap
      (fun t =>
        if fullSellFires oldBalances newBalances botBalances t then
          some (t, TransitionKind.FULL_EXIT)
        else
          none)

/-- One parsed token account of the RPC response: mint and UI amount. -/
abbrev TokenAccount := Token × ℚ

/-- The loop body of `getWalletTokenBalances`: insert only positive balances. -/
def snapshotStep (m : BalMap) (a : TokenAccount) : BalMap :=
  if a.2 > 0 then setBal m a.1 a.2 else m

/-- `getWalletTokenBalances`: on a successful RPC response fold the accounts
into a map keeping only positive balances; on any fetch error return the
empty map (the `catch` branch). -/
def getWalletTokenBalances (fetched : Except String (List TokenAccount)) : BalMap :=
  match fetched with
  | Except.error _ => []
  | Except.ok accounts => accounts.foldl snapshotStep []

/-- An executor that fails every swap (latency 7 ms). -/
def failExec : Executor :=
  fun _ => ({ success := false, outAmount := 0 }, 7)

/-- An executor that fills every swap with output amount 1000 (latency 5 ms). -/
def succExec : Executor :=
  fun _ => ({ success := true, outAmount := 1000 }, 5)

end SolanaBot

namespace SolanaBot

theorem lookupBal_setBal (m : BalMap) (t s : Token) (v : ℚ) :
    lookupBal (setBal m t v) s = if s = t then some v else lookupBal m s := by
  induction m with
  | nil =>
      by_cases h : s = t
      · subst h; simp [setBal, lookupBal]
      · have h' : ¬t = s := fun hh => h hh.symm
        simp [setBal, lookupBal, h, h']
  | cons a rest ih =>
      obtain ⟨k, w⟩ := a
      by_cases hk : k = t
      · subst hk
        by_cases hs : s = k
        · subst hs; simp [setBal, lookupBal]
        · have hs' : ¬k = s := fun hh => hs hh.symm
          simp [setBal, lookupBal, hs, hs']
      · by_cases hs : k = s
        · subst hs
          simp [setBal, lookupBal, hk]
        · simp [setBal, lookupBal, hk, hs, ih]

theorem getBal_setBal_self (m : BalMap) (t : Token) (v : ℚ) :
    getBal (setBal m t v) t = v := by
  simp [getBal, lookupBal_setBal]

theorem getBal_eq_zero_of_hasBal_false (m : BalMap) (t : Token)
    (h : hasBal m t = false) : getBal m t = 0 := by
  unfold hasBal at h
  unfold getBal
  cases hl : lookupBal m t with
  | none => simp
  | some v => rw [hl] at h; simp at h

theorem hasBal_of_getBal_pos (m : BalMap) (t : Token) (h : 0 < getBal m t) :
    hasBal m t = true := by
  unfold getBal at h
  unfold hasBal
  cases hl : lookupBal m t with
  | none => rw [hl] at h; simp at h
  | some v => simp [hl]

theorem tradeBranch_partial_iff
    (oldBalances newBalances botBalances previousBalances : BalMap) (t : Token) :
    tradeBranch oldBalances newBalances botBalances previousBalances t =
        some TransitionKind.PARTIAL_DECREASE ↔
      getBal newBalances t < getBal oldBalances t ∧ 0 < getBal newBalances t := by
  unfold tradeBranch
  split_ifs with hmem h1 h2 h3
  · simp only [Option.some.injEq]
    constructor
    · intro h; cases h
    · rintro ⟨hlt, -⟩; exact absurd h1.1 (not_lt.mpr hlt.le)
  · simp only [Option.some.injEq]
    constructor
    · intro h; cases h
    · rintro ⟨hlt, -⟩; exact absurd h2 (not_lt.mpr hlt.le)
  · simp only [gt_iff_lt] at h3
    simp [h3.1, h3.2]
  · simp only [gt_iff_lt, not_and, not_lt] at h3
    constructor
    · intro h; cases h
    · rintro ⟨hlt, hpos⟩; exact absurd hpos (not_lt.mpr (h3 hlt))
  · constructor
    · intro h; cases h
    · rintro ⟨-, hpos⟩; exact absurd (hasBal_of_getBal_pos _ _ hpos) (by simp [hmem])

theorem tradeBranch_new_position_bot_free
    (oldBalances newBalances botBalances previousBalances : BalMap) (t : Token)
    (h : tradeBranch oldBalances newBalances botBalances previousBalances t =
      some TransitionKind.NEW_POSITION) :
    hasBal botBalances t = false := by
  unfold tradeBranch at h
  split_ifs at h with hmem h1 h2 h3
  · exact h1.2.1
  · cases h
  · cases h

/-- Claim C1, counterexample: for `oldBalance = 1`, `newBalance = 1/1000`
(so `0 < new ≤ 0.001 < old`) and a positive bot position, the comparison pass
takes BOTH the partial-decrease sell branch (dispatching a percentage SELL)
and the full-sell branch (dispatching a 100% SELL) for the same token. -/
theorem dust_decrease_takes_both_sell_branches :
    tradeBranch [("T", 1)] [("T", 1/1000)] [("T", 5)] [("T", 1)] "T" =
        some TransitionKind.PARTIAL_DECREASE ∧
      fullSellFires [("T", 1)] [("T", 1/1000)] [("T", 5)] "T" = true ∧
      (processNewToken failExec [("T", 1)] [("T", 1/1000)] 1
          ⟨[("T", 5)], [("T", 1)], resetMetrics, 0⟩ "T").2 =
        [⟨Direction.SELL, "T", solMint, 999/10⟩] ∧
      (processOldToken failExec [("T", 1)] [("T", 1/1000)]
          ⟨[("T", 5)], [("T", 1)], resetMetrics, 0⟩ "T").2 =
        [⟨Direction.SELL, "T", solMint, 100⟩] := by
  refine ⟨?_, ?_, ?_, ?_⟩ <;>
    norm_num [tradeBranch, fullSellFires, processNewToken, processOldToken, hasBal,
      getBal, lookupBal, failExec, decreasePercent, DUST_THRESHOLD]

/-- Claim C1 (amended): the three new-token branches are mutually exclusive
by construction (`tradeBranch` returns at most one kind), a `NEW_POSITION`
classification never coincides with the full-sell branch, and whenever the
new balance exceeds the dust threshold `0.001` the full-sell branch cannot
fire at all — so the partial-decrease and full-sell branches are exclusive
above dust. Below dust (`0 < new ≤ 0.001 < old` with a positive bot
position) both sell branches fire, as the counterexample shows. -/
theorem trade_and_full_sell_exclusive_above_dust
    (oldBalances newBalances botBalances previousBalances : BalMap) (t : Token) :
    (tradeBranch oldBalances newBalances botBalances previousBalances t =
        some TransitionKind.NEW_POSITION →
      fullSellFires oldBalances newBalances botBalances t = false) ∧
    (DUST_THRESHOLD < getBal newBalances t →
      fullSellFires oldBalances newBalances botBalances t = false) := by
  constructor
  · intro h
    have hbot : hasBal botBalances t = false :=
      tradeBranch_new_position_bot_free _ _ _ _ _ h
    have hzero : getBal botBalances t = 0 :=
      getBal_eq_zero_of_hasBal_false _ _ hbot
    simp [fullSellFires, hzero]
  · intro h
    have hpos : 0 < getBal newBalances t := by
      have : (0 : ℚ) < DUST_THRESHOLD := by norm_num [DUST_THRESHOLD]
      linarith
    have hmem : hasBal newBalances t = true := hasBal_of_getBal_pos _ _ hpos
    have hgt : ¬getBal newBalances t ≤ DUST_THRESHOLD := not_le.mpr h
    simp [fullSellFires, hmem, hgt]

/-- Claim C1 (amended) witness: at `old = 5`, `new = 2 > 0.001`, bot
position `1`, the full-sell branch does not fire. -/
theorem trade_and_full_sell_exclusive_above_dust_witness :
    DUST_THRESHOLD < getBal [("T", (2 : ℚ))] "T" ∧
      fullSellFires [("T", 5)] [("T", 2)] [("T", 1)] "T" = false :=
  ⟨by norm_num [DUST_THRESHOLD, getBal, lookupBal],
    (trade_and_full_sell_exclusive_above_dust [("T", 5)] [("T", 2)] [("T", 1)] [] "T").2
      (by norm_num [DUST_THRESHOLD, getBal, lookupBal])⟩

/-- Claim C3, counterexample: with `old = 1` and `new = 1/2000 ≤ 0.001` the
code still classifies a `PARTIAL_DECREASE` (its guard is `new > 0`, not
`new > 0.001`), contradicting the claim that the classification requires the
new balance to strictly exceed the dust threshold. -/
theorem partial_decrease_below_dust_classified :
    tradeBranch [("T", 1)] [("T", 1/2000)] [] [] "T" =
        some TransitionKind.PARTIAL_DECREASE ∧
      getBal [("T", (1 : ℚ)/2000)] "T" ≤ DUST_THRESHOLD := by
  constructor <;>
    norm_num [tradeBranch, hasBal, getBal, lookupBal, DUST_THRESHOLD]

/-- Claim C3 (amended): a `PARTIAL_DECREASE` is classified exactly when the
new balance is strictly less than the old balance and strictly greater than
`0` (not the dust threshold `0.001`); the percent `(old - new)/old * 100` is
then always in the open interval `(0, 100)`, and `old = 50`, `new = 30`
yields percent `40`. -/
theorem partial_decrease_characterization
    (oldBalances newBalances botBalances previousBalances : BalMap) (t : Token) :
    (tradeBranch oldBalances newBalances botBalances previousBalances t =
        some TransitionKind.PARTIAL_DECREASE ↔
      getBal newBalances t < getBal oldBalances t ∧ 0 < getBal newBalances t) ∧
    (0 < getBal newBalances t → getBal newBalances t < getBal oldBalances t →
      0 < decreasePercent (getBal oldBalances t) (getBal newBalances t) ∧
        decreasePercent (getBal oldBalances t) (getBal newBalances t) < 100) ∧
    decreasePercent 50 30 = 40 := by
  refine ⟨tradeBranch_partial_iff _ _ _ _ _, ?_, by norm_num [decreasePercent]⟩
  intro hpos hlt
  have ho : 0 < getBal oldBalances t := lt_trans hpos hlt
  constructor
  · unfold decreasePercent
    have : 0 < getBal oldBalances t - getBal newBalances t := by linarith
    positivity
  · unfold decreasePercent
    have h1 : (getBal oldBalances t - getBal newBalances t) / getBal oldBalances t < 1 := by
      rw [div_lt_one ho]
      linarith
    linarith

/-- Claim C3 (amended) witness: at `old = 50`, `new = 30` the pass classifies
`PARTIAL_DECREASE` with percent `40`, which lies in `(0, 100)`. -/
theorem partial_decrease_characterization_witness :
    tradeBranch [("T", 50)] [("T", 30)] [] [] "T" =
        some TransitionKind.PARTIAL_DECREASE ∧
      0 < decreasePercent (getBal [("T", (50 : ℚ))] "T") (getBal [("T", (30 : ℚ))] "T") ∧
      decreasePercent (getBal [("T", (50 : ℚ))] "T") (getBal [("T", (30 : ℚ))] "T") < 100 :=
  ⟨(partial_decrease_characterization [("T", 50)] [("T", 30)] [] [] "T").1.mpr
      (by norm_num [getBal, lookupBal]),
    (partial_decrease_characterization [("T", 50)] [("T", 30)] [] [] "T").2.1
      (by norm_num [getBal, lookupBal]) (by norm_num [getBal, lookupBal])⟩

/-- Claim C9: a balance-fetch failure makes `getWalletTokenBalances` return
the empty balance map instead of propagating the error. -/
theorem fetch_error_yields_empty_map (e : String) :
    getWalletTokenBalances (Except.error e) = [] :=
  rfl

/-- Claim C10: every balance map produced by the snapshot fetch contains only
strictly positive values, and an account whose balance is exactly `0`
contributes nothing to the map, so a zero balance is indistinguishable from
the token being absent. -/
theorem snapshot_balances_positive :
    (∀ (accounts : List TokenAccount) (t : Token) (v : ℚ),
        lookupBal (getWalletTokenBalances (Except.ok accounts)) t = some v → 0 < v) ∧
      ∀ (m : BalMap) (t : Token), snapshotStep m (t, 0) = m := by
  constructor
  · intro accounts
    suffices h : ∀ (m : BalMap),
        (∀ s v, lookupBal m s = some v → 0 < v) →
        ∀ s v, lookupBal (accounts.foldl snapshotStep m) s = some v → 0 < v by
      intro t v hv
      exact h [] (by intro s w hw; cases hw) t v hv
    induction accounts with
    | nil => intro m hm s v hv; exact hm s v hv
    | cons a rest ih =>
        intro m hm s v hv
        refine ih (snapshotStep m a) ?_ s v hv
        intro s' v' hv'
        unfold snapshotStep at hv'
        split_ifs at hv' with hpos
        · rw [lookupBal_setBal] at hv'
          split_ifs at hv' with hs
          · cases hv'; exact hpos
          · exact hm s' v' hv'
        · exact hm s' v' hv'
  · intro m t
    simp [snapshotStep]

/-- Claim C10 witness: fetching accounts `[("A", 2), ("B", 0)]` yields a map
where the looked-up value of `"A"` is positive. -/
theorem snapshot_balances_positive_witness :
    lookupBal (getWalletTokenBalances (Except.ok [("A", 2), ("B", 0)])) "A" =
        some 2 ∧ (0 : ℚ) < 2 :=
  ⟨by norm_num [getWalletTokenBalances, snapshotStep, setBal, lookupBal],
    snapshot_balances_positive.1 [("A", 2), ("B", 0)] "A" 2
      (by norm_num [getWalletTokenBalances, snapshotStep, setBal, lookupBal])⟩

/-- Claim C2 (code bug): the source's full-sell success path stores `0` under
the token key in `botBalances` (and deletes the token from
`previousBalances`, with a comment saying this is "to allow new buys"), but
the initial-buy guard tests `!botBalances.has(token)`, not a zero held
amount. Hence after a successful full exit (here: tracked wallet `3 → gone`,
bot holding `3`) the bot's held amount for `"T"` is `0`, yet a reappearance
with `old = 0`, `new = 5` is classified `INCREASE` — no `NEW_POSITION` buy is
triggered, contradicting the claim (and the code's own comment). -/
theorem reappearance_after_full_exit_not_new_position :
    (compareBalances succExec 1 [("T", 3)] []
        ⟨[("T", 3)], [("T", 3)], resetMetrics, 0⟩).1.botBalances = [("T", 0)] ∧
      getBal (compareBalances succExec 1 [("T", 3)] []
        ⟨[("T", 3)], [("T", 3)], resetMetrics, 0⟩).1.botBalances "T" = 0 ∧
      tradeBranch [] [("T", 5)]
        (compareBalances succExec 1 [("T", 3)] []
          ⟨[("T", 3)], [("T", 3)], resetMetrics, 0⟩).1.botBalances
        (compareBalances succExec 1 [("T", 3)] []
          ⟨[("T", 3)], [("T", 3)], resetMetrics, 0⟩).1.previousBalances
        "T" = some TransitionKind.INCREASE := by
  refine ⟨?_, ?_, ?_⟩ <;>
    norm_num [compareBalances, runTradeLoop, runSellLoop, processOldToken, keysOf,
      succExec, tradeBranch, hasBal, getBal, lookupBal, setBal, delBal,
      DUST_THRESHOLD]

/-- Claim C4: whenever the trade branch classifies `INCREASE` for a token,
the per-token handler dispatches no swap command at all, and the full-sell
handler only ever dispatches SELL commands — so no buy is performed for the
token; only the alert notification side effect remains. -/
theorem increase_issues_no_swap (exec : Executor) (oldBalances newBalances : BalMap)
    (tradeAmount : ℚ) (st : TrackerState) (t : Token)
    (h : tradeBranch oldBalances newBalances st.botBalances st.previousBalances t =
      some TransitionKind.INCREASE) :
    (processNewToken exec oldBalances newBalances tradeAmount st t).2 = [] ∧
      ∀ c ∈ (processOldToken exec oldBalances newBalances st t).2,
        c.direction = Direction.SELL := by
  constructor
  · simp only [processNewToken]
    unfold tradeBranch at h
    split_ifs at h ⊢ <;> simp_all
  · simp only [processOldToken]
    split_ifs <;> intro c hc <;> simp_all

/-- Claim C4 witness: tracked balance rises `1 → 2` while the bot already
holds the token, so the classification is `INCREASE` and no swap command is
dispatched by the trade handler; the full-sell handler emits only SELLs. -/
theorem increase_issues_no_swap_witness :
    (processNewToken failExec [("T", 1)] [("T", 2)] 1
        ⟨[("T", 9)], [], resetMetrics, 0⟩ "T").2 = [] :=
  (increase_issues_no_swap failExec [("T", 1)] [("T", 2)] 1
      ⟨[("T", 9)], [], resetMetrics, 0⟩ "T"
      (by norm_num [tradeBranch, hasBal, getBal, lookupBal])).1

/-- Claim C8, counterexample: starting from empty tracking state, the pass on
`old = {}` and `new = {"T": 5}` classifies `NEW_POSITION`; replaying the very
same `(old, new)` pair immediately afterwards (no other mutation, swap
failed so not even the ledger changed) classifies `INCREASE`, because the
pass itself reassigned `previousBalances` to the new snapshot. -/
theorem replay_reclassifies_new_position :
    passClassification [] [("T", 5)]
        ((compareBalances failExec 1 [] [("T", 5)]
          ⟨[], [], resetMetrics, 0⟩).1.botBalances)
        ((compareBalances failExec 1 [] [("T", 5)]
          ⟨[], [], resetMetrics, 0⟩).1.previousBalances) ≠
      passClassification [] [("T", 5)] [] [] := by
  norm_num [passClassification, compareBalances, runTradeLoop, runSellLoop,
    processNewToken, keysOf, failExec, tradeBranch, hasBal, getBal, lookupBal,
    setBal, delBal, DUST_THRESHOLD, List.filterMap_cons, List.filterMap_nil]
  simp

/-- Claim C8 (amended): the classification output is a pure function of the
pair `(old, new)` together with the tracking state `(botBalances,
previousBalances)` — equal states give equal outputs — but the comparison
pass is not state-preserving: it always ends by reassigning
`previousBalances` to the new snapshot, so replaying the same pair is only
guaranteed to repeat the output when that state is restored. -/
theorem pass_reassigns_previousBalances (exec : Executor) (tradeAmount : ℚ)
    (oldBalances newBalances : BalMap) (st : TrackerState) :
    (compareBalances exec tradeAmount oldBalances newBalances st).1.previousBalances =
        newBalances ∧
      ∀ st' : TrackerState, st'.botBalances = st.botBalances →
        st'.previousBalances = st.previousBalances →
        passClassification oldBalances newBalances st'.botBalances st'.previousBalances =
          passClassification oldBalances newBalances st.botBalances st.previousBalances := by
  constructor
  · rfl
  · intro st' h1 h2
    rw [h1, h2]

/-- Claim C8 (amended) witness: instantiated at the empty state, a pass over
`old = {}`, `new = {"T": 5}` leaves `previousBalances = [("T", 5)]`. -/
theorem pass_reassigns_previousBalances_witness :
    (compareBalances failExec 1 [] [("T", 5)]
        ⟨[], [], resetMetrics, 0⟩).1.previousBalances = [("T", 5)] ∧
      passClassification [] [("T", 5)] [] [] = passClassification [] [("T", 5)] [] [] :=
  ⟨(pass_reassigns_previousBalances failExec 1 [] [("T", 5)]
      ⟨[], [], resetMetrics, 0⟩).1,
    (pass_reassigns_previousBalances failExec 1 [] [("T", 5)]
        ⟨[], [], resetMetrics, 0⟩).2 ⟨[], [], resetMetrics, 0⟩ rfl rfl⟩

theorem tradeBranch_new_position_iff
    (oldBalances newBalances botBalances previousBalances : BalMap) (t : Token) :
    tradeBranch oldBalances newBalances botBalances previousBalances t =
        some TransitionKind.NEW_POSITION ↔
      hasBal newBalances t = true ∧ getBal oldBalances t < getBal newBalances t ∧
        hasBal botBalances t = false ∧ hasBal previousBalances t = false := by
  unfold tradeBranch
  split_ifs with hmem h1 h2 h3
  · exact iff_of_true rfl ⟨hmem, h1.1, h1.2.1, h1.2.2⟩
  · constructor
    · intro h; simp at h
    · rintro ⟨-, hno, hbotF, hprevF⟩; exact absurd ⟨hno, hbotF, hprevF⟩ h1
  · constructor
    · intro h; simp at h
    · rintro ⟨-, hno, hbotF, hprevF⟩; exact absurd ⟨hno, hbotF, hprevF⟩ h1
  · constructor
    · intro h; simp at h
    · rintro ⟨-, hno, hbotF, hprevF⟩; exact absurd ⟨hno, hbotF, hprevF⟩ h1
  · constructor
    · intro h; simp at h
    · rintro ⟨hm, -⟩; exact absurd hm hmem

/-- Claim C5: ledger updates on successful sells. Given the full-sell guard
and a successful swap, the bot's entry for the token becomes `0`; given a
`PARTIAL_DECREASE` classification with a positive bot holding `H` and a
successful swap at percent `P = (old-new)/old*100`, the entry becomes
`H - H*P/100` (exactly, over ℚ). -/
theorem sell_success_updates_position_ledger (exec : Executor)
    (oldBalances newBalances : BalMap) (tradeAmount : ℚ) (st : TrackerState) (t : Token) :
    (fullSellFires oldBalances newBalances st.botBalances t = true →
      ((exec ⟨Direction.SELL, t, solMint, 100⟩).1).success = true →
      getBal (processOldToken exec oldBalances newBalances st t).1.botBalances t = 0) ∧
    (tradeBranch oldBalances newBalances st.botBalances st.previousBalances t =
        some TransitionKind.PARTIAL_DECREASE →
      0 < getBal st.botBalances t →
      ((exec ⟨Direction.SELL, t, solMint,
          decreasePercent (getBal oldBalances t) (getBal newBalances t)⟩).1).success = true →
      getBal (processNewToken exec oldBalances newBalances tradeAmount st t).1.botBalances t =
        getBal st.botBalances t -
          getBal st.botBalances t *
            (decreasePercent (getBal oldBalances t) (getBal newBalances t) / 100)) := by
  constructor
  · intro hfire hsucc
    simp only [fullSellFires, Bool.and_eq_true, Bool.or_eq_true, Bool.not_eq_true',
      decide_eq_true_eq] at hfire
    obtain ⟨⟨hold, hnew⟩, hbot⟩ := hfire
    simp only [processOldToken]
    split_ifs with hguard
    · exact getBal_setBal_self _ _ _
    · exact absurd ⟨hnew, hbot⟩ hguard
  · intro hpd hbot hsucc
    obtain ⟨hlt, hpos⟩ :=
      (tradeBranch_partial_iff oldBalances newBalances st.botBalances
        st.previousBalances t).mp hpd
    have hmem : hasBal newBalances t = true := hasBal_of_getBal_pos _ _ hpos
    simp only [processNewToken]
    rw [if_pos hmem, if_neg (fun hc => absurd hc.1 (not_lt.mpr hlt.le)),
      if_neg (not_lt.mpr hlt.le), if_pos ⟨hlt, hpos⟩, if_pos hbot, if_pos hsucc]
    exact getBal_setBal_self _ _ _

/-- Claim C5 witness: a successful full sell (tracked `3 → gone`, bot holds
`3`) zeroes the entry; a successful partial sell (tracked `50 → 30`, bot
holds `10`) leaves `10 - 10*(40/100)`. -/
theorem sell_success_updates_position_ledger_witness :
    getBal (processOldToken succExec [("T", 3)] []
        ⟨[("T", 3)], [("T", 3)], resetMetrics, 0⟩ "T").1.botBalances "T" = 0 ∧
      getBal (processNewToken succExec [("T", 50)] [("T", 30)] 1
          ⟨[("T", 10)], [], resetMetrics, 0⟩ "T").1.botBalances "T" =
        getBal [("T", (10 : ℚ))] "T" -
          getBal [("T", (10 : ℚ))] "T" *
            (decreasePercent (getBal [("T", (50 : ℚ))] "T")
              (getBal [("T", (30 : ℚ))] "T") / 100) :=
  ⟨(sell_success_updates_position_ledger succExec [("T", 3)] [] 1
      ⟨[("T", 3)], [("T", 3)], resetMetrics, 0⟩ "T").1
      (by norm_num [fullSellFires, hasBal, getBal, lookupBal, DUST_THRESHOLD]) rfl,
    (sell_success_updates_position_ledger succExec [("T", 50)] [("T", 30)] 1
        ⟨[("T", 10)], [], resetMetrics, 0⟩ "T").2
      (by norm_num [tradeBranch, hasBal, getBal, lookupBal])
      (by norm_num [getBal, lookupBal]) rfl⟩

/-- Claim C6, counterexample: a dispatched BUY whose outcome reports
`success: false` leaves the metrics state entirely unchanged — `totalTrades`
is NOT incremented and no latency is appended — because the buy-failure
branch of the source never calls `updatePerformanceMetrics`. -/
theorem failed_buy_skips_metrics :
    (processNewToken failExec [] [("T", 5)] 1 ⟨[], [], resetMetrics, 0⟩ "T").2.length = 1 ∧
      (processNewToken failExec [] [("T", 5)] 1
        ⟨[], [], resetMetrics, 0⟩ "T").1.metrics = resetMetrics := by
  constructor <;>
    norm_num [processNewToken, failExec, hasBal, getBal, lookupBal, resetMetrics]

/-- Claim C6 (amended): on any failed swap the position ledger is untouched
and `successfulTrades` is not incremented; for failed SELLs (partial and
full) `totalTrades` is incremented by 1 and the failed attempt's latency is
appended, but a failed BUY performs no metrics update at all (its metrics
state is exactly the prior one). -/
theorem failed_swap_step_effects (exec : Executor) (oldBalances newBalances : BalMap)
    (tradeAmount : ℚ) (st : TrackerState) (t : Token) :
    (tradeBranch oldBalances newBalances st.botBalances st.previousBalances t =
        some TransitionKind.NEW_POSITION →
      ((exec ⟨Direction.BUY, solMint, t, tradeAmount⟩).1).success = false →
      (processNewToken exec oldBalances newBalances tradeAmount st t).1.botBalances =
          st.botBalances ∧
        (processNewToken exec oldBalances newBalances tradeAmount st t).1.metrics =
          st.metrics ∧
        (processNewToken exec oldBalances newBalances tradeAmount st t).2 =
          [⟨Direction.BUY, solMint, t, tradeAmount⟩]) ∧
    (tradeBranch oldBalances newBalances st.botBalances st.previousBalances t =
        some TransitionKind.PARTIAL_DECREASE →
      0 < getBal st.botBalances t →
      ((exec ⟨Direction.SELL, t, solMint,
          decreasePercent (getBal oldBalances t) (getBal newBalances t)⟩).1).success = false →
      (processNewToken exec oldBalances newBalances tradeAmount st t).1.botBalances =
          st.botBalances ∧
        (processNewToken exec oldBalances newBalances tradeAmount st t).1.metrics.totalTrades =
          st.metrics.totalTrades + 1 ∧
        (processNewToken exec oldBalances newBalances tradeAmount st t).1.metrics.successfulTrades =
          st.metrics.successfulTrades ∧
        (processNewToken exec oldBalances newBalances tradeAmount st t).1.metrics.latencies =
          st.metrics.latencies ++
            [(exec ⟨Direction.SELL, t, solMint,
              decreasePercent (getBal oldBalances t) (getBal newBalances t)⟩).2]) ∧
    (fullSellFires oldBalances newBalances st.botBalances t = true →
      ((exec ⟨Direction.SELL, t, solMint, 100⟩).1).success = false →
      (processOldToken exec oldBalances newBalances st t).1.botBalances = st.botBalances ∧
        (processOldToken exec oldBalances newBalances st t).1.metrics.totalTrades =
          st.metrics.totalTrades + 1 ∧
        (processOldToken exec oldBalances newBalances st t).1.metrics.successfulTrades =
          st.metrics.successfulTrades ∧
        (processOldToken exec oldBalances newBalances st t).1.metrics.latencies =
          st.metrics.latencies ++ [(exec ⟨Direction.SELL, t, solMint, 100⟩).2]) := by
  refine ⟨?_, ?_, ?_⟩
  · intro hnp hfail
    obtain ⟨hmem, hno, hbotF, hprevF⟩ :=
      (tradeBranch_new_position_iff oldBalances newBalances st.botBalances
        st.previousBalances t).mp hnp
    simp only [processNewToken]
    rw [if_pos hmem, if_pos ⟨hno, hbotF, hprevF⟩,
      if_neg (fun hc => absurd hc.1 (by simp [hfail]))]
    exact ⟨rfl, rfl, rfl⟩
  · intro hpd hbot hfail
    obtain ⟨hlt, hpos⟩ :=
      (tradeBranch_partial_iff oldBalances newBalances st.botBalances
        st.previousBalances t).mp hpd
    have hmem : hasBal newBalances t = true := hasBal_of_getBal_pos _ _ hpos
    simp only [processNewToken]
    rw [if_pos hmem, if_neg (fun hc => absurd hc.1 (not_lt.mpr hlt.le)),
      if_neg (not_lt.mpr hlt.le), if_pos ⟨hlt, hpos⟩, if_pos hbot,
      if_neg (by simp [hfail])]
    simp [updatePerformanceMetrics]
  · intro hfire hfail
    simp only [fullSellFires, Bool.and_eq_true, Bool.or_eq_true, Bool.not_eq_true',
      decide_eq_true_eq] at hfire
    obtain ⟨⟨hold, hnew⟩, hbot⟩ := hfire
    simp only [processOldToken]
    rw [if_pos ⟨hnew, hbot⟩, if_neg (by simp [hfail])]
    simp [updatePerformanceMetrics]

/-- Claim C6 (amended) witness: a failed buy leaves the metrics at
`resetMetrics`; a failed partial sell and a failed full sell each increment
`totalTrades` by 1. -/
theorem failed_swap_step_effects_witness :
    (processNewToken failExec [] [("T", 5)] 1
        ⟨[], [], resetMetrics, 0⟩ "T").1.metrics = resetMetrics ∧
      (processNewToken failExec [("T", 50)] [("T", 30)] 1
        ⟨[("T", 10)], [], resetMetrics, 0⟩ "T").1.metrics.totalTrades =
        resetMetrics.totalTrades + 1 ∧
      (processOldToken failExec [("T", 3)] []
        ⟨[("T", 3)], [("T", 3)], resetMetrics, 0⟩ "T").1.metrics.totalTrades =
        resetMetrics.totalTrades + 1 :=
  ⟨((failed_swap_step_effects failExec [] [("T", 5)] 1
        ⟨[], [], resetMetrics, 0⟩ "T").1
      (by norm_num [tradeBranch, hasBal, getBal, lookupBal]) rfl).2.1,
    ((failed_swap_step_effects failExec [("T", 50)] [("T", 30)] 1
        ⟨[("T", 10)], [], resetMetrics, 0⟩ "T").2.1
      (by norm_num [tradeBranch, hasBal, getBal, lookupBal])
      (by norm_num [getBal, lookupBal]) rfl).2.1,
    ((failed_swap_step_effects failExec [("T", 3)] [] 1
        ⟨[("T", 3)], [("T", 3)], resetMetrics, 0⟩ "T").2.2
      (by norm_num [fullSellFires, hasBal, getBal, lookupBal, DUST_THRESHOLD])
      rfl).2.1⟩

/-- Claim C7, counterexample: a SUCCESSFUL full sell dispatches one swap
command but the success path of the full-sell branch never calls
`updatePerformanceMetrics`, so `metrics.totalTrades` stays `0` while one
command has been dispatched — `totalTrades` does not equal the number of
commands ever dispatched. -/
theorem full_sell_success_not_counted :
    (processOldToken succExec [("T", 3)] []
        ⟨[("T", 3)], [("T", 3)], resetMetrics, 0⟩ "T").2.length = 1 ∧
      (processOldToken succExec [("T", 3)] []
        ⟨[("T", 3)], [("T", 3)], resetMetrics, 0⟩ "T").1.metrics.totalTrades = 0 := by
  constructor <;>
    norm_num [processOldToken, succExec, hasBal, getBal, lookupBal, DUST_THRESHOLD,
      resetMetrics]

theorem processNewToken_metrics_step (exec : Executor) (oldBalances newBalances : BalMap)
    (tradeAmount : ℚ) (st : TrackerState) (t : Token) :
    (processNewToken exec oldBalances newBalances tradeAmount st t).1.metrics.totalTrades ≤
        st.metrics.totalTrades +
          (processNewToken exec oldBalances newBalances tradeAmount st t).2.length ∧
      (st.metrics.successfulTrades ≤ st.metrics.totalTrades →
        (processNewToken exec oldBalances newBalances tradeAmount st t).1.metrics.successfulTrades ≤
          (processNewToken exec oldBalances newBalances tradeAmount st t).1.metrics.totalTrades) := by
  simp only [processNewToken]
  split_ifs <;> simp_all [updatePerformanceMetrics] <;> (try split_ifs) <;> intros <;> omega

theorem processOldToken_metrics_step (exec : Executor) (oldBalances newBalances : BalMap)
    (st : TrackerState) (t : Token) :
    (processOldToken exec oldBalances newBalances st t).1.metrics.totalTrades ≤
        st.metrics.totalTrades +
          (processOldToken exec oldBalances newBalances st t).2.length ∧
      (st.metrics.successfulTrades ≤ st.metrics.totalTrades →
        (processOldToken exec oldBalances newBalances st t).1.metrics.successfulTrades ≤
          (processOldToken exec oldBalances newBalances st t).1.metrics.totalTrades) := by
  simp only [processOldToken]
  split_ifs <;> simp_all [updatePerformanceMetrics] <;> intros <;> omega

theorem runTradeLoop_metrics (exec : Executor) (oldBalances newBalances : BalMap)
    (tradeAmount : ℚ) (ts : List Token) :
    ∀ st : TrackerState,
      (runTradeLoop exec oldBalances newBalances tradeAmount ts st).1.metrics.totalTrades ≤
          st.metrics.totalTrades +
            (runTradeLoop exec oldBalances newBalances tradeAmount ts st).2.length ∧
        (st.metrics.successfulTrades ≤ st.metrics.totalTrades →
          (runTradeLoop exec oldBalances newBalances tradeAmount ts st).1.metrics.successfulTrades ≤
            (runTradeLoop exec oldBalances newBalances tradeAmount ts st).1.metrics.totalTrades) := by
  induction ts with
  | nil => intro st; simp [runTradeLoop]
  | cons t ts ih =>
      intro st
      have hstep := processNewToken_metrics_step exec oldBalances newBalances tradeAmount st t
      have hrest := ih (processNewToken exec oldBalances newBalances tradeAmount st t).1
      simp only [runTradeLoop, List.length_append]
      refine ⟨?_, fun h => hrest.2 (hstep.2 h)⟩
      have h1 := hstep.1
      have h2 := hrest.1
      omega

theorem runSellLoop_metrics (exec : Executor) (oldBalances newBalances : BalMap)
    (ts : List Token) :
    ∀ st : TrackerState,
      (runSellLoop exec oldBalances newBalances ts st).1.metrics.totalTrades ≤
          st.metrics.totalTrades +
            (runSellLoop exec oldBalances newBalances ts st).2.length ∧
        (st.metrics.successfulTrades ≤ st.metrics.totalTrades →
          (runSellLoop exec oldBalances newBalances ts st).1.metrics.successfulTrades ≤
            (runSellLoop exec oldBalances newBalances ts st).1.metrics.totalTrades) := by
  induction ts with
  | nil => intro st; simp [runSellLoop]
  | cons t ts ih =>
      intro st
      have hstep := processOldToken_metrics_step exec oldBalances newBalances st t
      have hrest := ih (processOldToken exec oldBalances newBalances st t).1
      simp only [runSellLoop, List.length_append]
      refine ⟨?_, fun h => hrest.2 (hstep.2 h)⟩
      have h1 := hstep.1
      have h2 := hrest.1
      omega

/-- Claim C7 (amended): in every state reachable from `resetMetrics` by
comparison passes, `successfulTrades ≤ totalTrades` holds and
`totalTrades` is at most the prior count plus the number of swap commands
the pass dispatched — but it can undercount dispatched commands (failed
buys and successful full sells perform no metrics update), so equality with
the dispatch count does not hold in general. -/
theorem metrics_totalTrades_bounds (exec : Executor) (tradeAmount : ℚ)
    (oldBalances newBalances : BalMap) (st : TrackerState) :
    (st.metrics.successfulTrades ≤ st.metrics.totalTrades →
      (compareBalances exec tradeAmount oldBalances newBalances st).1.metrics.successfulTrades ≤
        (compareBalances exec tradeAmount oldBalances newBalances st).1.metrics.totalTrades) ∧
      (compareBalances exec tradeAmount oldBalances newBalances st).1.metrics.totalTrades ≤
        st.metrics.totalTrades +
          (compareBalances exec tradeAmount oldBalances newBalances st).2.length ∧
      resetMetrics.successfulTrades ≤ resetMetrics.totalTrades := by
  have h1 := runTradeLoop_metrics exec oldBalances newBalances tradeAmount (keysOf newBalances) st
  have h2 := runSellLoop_metrics exec oldBalances newBalances (keysOf oldBalances)
    (runTradeLoop exec oldBalances newBalances tradeAmount (keysOf newBalances) st).1
  simp only [compareBalances, List.length_append]
  refine ⟨fun h => h2.2 (h1.2 h), ?_, by simp [resetMetrics]⟩
  have ha := h1.1
  have hb := h2.1
  omega

/-- Claim C7 (amended) witness: starting from the reset metrics state
(where `successfulTrades ≤ totalTrades` trivially holds), one pass preserves
the inequality. -/
theorem metrics_totalTrades_bounds_witness :
    (compareBalances failExec 1 [] [("T", 5)]
        ⟨[], [], resetMetrics, 0⟩).1.metrics.successfulTrades ≤
      (compareBalances failExec 1 [] [("T", 5)]
        ⟨[], [], resetMetrics, 0⟩).1.metrics.totalTrades :=
  (metrics_totalTrades_bounds failExec 1 [] [("T", 5)]
      ⟨[], [], resetMetrics, 0⟩).1 (Nat.le_refl 0)

end SolanaBot
